import Mathlib

/-
Verification model of the `dessert` post-download handler (src/main.rs).

The program locates a `.rar` archive in a source directory, derives a
canonical destination file name from the archive's file stem (episode vs
movie naming), and walks the archive entries extracting the payload into
the destination directory, reconciling against an existing file.

The definitions below are a shallow embedding of the Rust source:
* `find_rar_file` embeds the directory scan (main.rs, `find_rar_file`);
* the `ep*` / `movie*` functions embed the two regexes of
  `get_destination_file_name` under the regex crate's leftmost-first
  match semantics (the episode pattern with default greediness, the
  movie pattern built with `swap_greed(true)`, i.e. a lazy `.*`);
* `classify` / `render` embed `get_destination_file_name`;
* `extract_rar_file` embeds the entry-walk loop, with the filesystem kept
  as an explicit association list from destination extension to file
  content and archive decompression supplied by an `Oracle`.
-/

namespace Dessert

/-- A filesystem path as observed by the program: `file_stem()` and
`extension()`, each `none` when absent or not valid UTF-8. -/
structure FsPath where
  stem : Option String
  ext : Option String
deriving DecidableEq

/-- `find_rar_file` (main.rs 88-108): scan the directory entries in order,
keep those whose extension is the string `rar`, take the first; `none`
models the `Failed to find rar file` error. -/
def find_rar_file : List FsPath → Option FsPath
  | [] => none
  | p :: rest =>
    match p.ext with
    | some e => if e = "rar" then some p else find_rar_file rest
    | none => find_rar_file rest

/-- `\d` restricted to ASCII digits (the names in play are ASCII). -/
def isDigitC (c : Char) : Bool := c.isDigit

/-- Regex `.` : any character except a newline. -/
def dotC (c : Char) : Bool := c != '\n'

/-- Tail `[eE](?P<episode>\d{1,2})` of the episode regex, with the greedy
digit counter preferring two digits over one; returns the episode digits. -/
def epEpi : List Char → Option (List Char)
  | [] => none
  | c :: rest =>
    if c = 'e' || c = 'E' then
      match rest with
      | [] => none
      | d1 :: rest1 =>
        if isDigitC d1 then
          match rest1 with
          | [] => some [d1]
          | d2 :: _ => if isDigitC d2 then some [d1, d2] else some [d1]
        else none
    else none

/-- Tail `.?[eE](\d{1,2})`: the greedy `.?` first tries to consume one
character, falling back to consuming nothing. -/
def epDotE : List Char → Option (List Char)
  | [] => none
  | c :: rest =>
    if dotC c then
      match epEpi rest with
      | some e => some e
      | none => epEpi (c :: rest)
    else epEpi (c :: rest)

/-- Tail `(?P<season>\d{1,2}).?[eE](\d{1,2})`: the greedy season counter
prefers two digits, backtracking to one if the continuation fails. -/
def epSeason : List Char → Option (List Char × List Char)
  | [] => none
  | d1 :: rest =>
    if isDigitC d1 then
      match rest with
      | [] => (epDotE []).map (fun e => ([d1], e))
      | d2 :: rest2 =>
        if isDigitC d2 then
          match epDotE rest2 with
          | some e => some ([d1, d2], e)
          | none => (epDotE rest).map (fun e => ([d1], e))
        else (epDotE rest).map (fun e => ([d1], e))
    else none

/-- Tail `[sS](\d{1,2}).?[eE](\d{1,2})` of the episode regex. -/
def epTail : List Char → Option (List Char × List Char)
  | [] => none
  | c :: rest => if c = 's' || c = 'S' then epSeason rest else none

/-- Episode match attempt at a fixed start position: the greedy
`(?P<name>.*)` prefers consuming another character into the name over
starting the `[sS]...` tail here. Returns `(name, season, episode)`. -/
def epFrom : List Char → Option (List Char × List Char × List Char)
  | [] => none
  | c :: rest =>
    match (if dotC c then (epFrom rest).map (fun r => (c :: r.1, r.2)) else none) with
    | some r => some r
    | none => (epTail (c :: rest)).map (fun se => ([], se))

/-- Unanchored leftmost search for the episode regex
`(?P<name>.*)[sS](?P<season>\d{1,2}).?[eE](?P<episode>\d{1,2})`:
the earliest start position wins, greediness decides within a start. -/
def epSearch : List Char → Option (List Char × List Char × List Char)
  | [] => none
  | c :: rest =>
    match epFrom (c :: rest) with
    | some r => some r
    | none => epSearch rest

/-- Captures of the episode regex as the `regex` crate presents them:
each named group is an `Option`, queried by `Captures::name`. -/
structure EpCaps where
  name : Option String
  season : Option String
  episode : Option String
deriving DecidableEq

/-- `Regex::captures` for the episode pattern (main.rs 116-119). -/
def episodeCaptures (s : String) : Option EpCaps :=
  (epSearch s.data).map fun r =>
    ⟨some (String.mk r.1), some (String.mk r.2.1), some (String.mk r.2.2)⟩

/-- Tail `\.(?P<year>\d{4})` of the movie regex at a fixed position. -/
def movieTail : List Char → Option (List Char)
  | c :: d1 :: d2 :: d3 :: d4 :: _ =>
    if c = '.' && isDigitC d1 && isDigitC d2 && isDigitC d3 && isDigitC d4 then
      some [d1, d2, d3, d4]
    else none
  | _ => none

/-- Movie match attempt at a fixed start position. The pattern is built
with `swap_greed(true)` (main.rs 137-139), so `(?P<name>.*)` is lazy: it
prefers matching `\.\d{4}` here over consuming another character. -/
def movieFrom : List Char → Option (List Char × List Char)
  | [] => none
  | c :: rest =>
    match movieTail (c :: rest) with
    | some y => some ([], y)
    | none =>
      if dotC c then (movieFrom rest).map (fun r => (c :: r.1, r.2)) else none

/-- Unanchored leftmost search for the movie regex; also returns the
match start offset (available from the crate's `Captures`). -/
def movieSearch : List Char → Option (Nat × List Char × List Char)
  | [] => none
  | c :: rest =>
    match movieFrom (c :: rest) with
    | some r => some (0, r.1, r.2)
    | none => (movieSearch rest).map (fun r => (r.1 + 1, r.2.1, r.2.2))

/-- Captures of the movie regex, groups queried by name. -/
structure MovieCaps where
  name : Option String
  year : Option String
deriving DecidableEq

/-- `Regex::captures` for the movie pattern (main.rs 137-141). -/
def movieCaptures (s : String) : Option MovieCaps :=
  (movieSearch s.data).map fun r =>
    ⟨some (String.mk r.2.1), some (String.mk r.2.2)⟩

/-- `str::replace('.', " ")` on the captured name. -/
def replaceDotL (cs : List Char) : List Char :=
  cs.map fun c => if c = '.' then ' ' else c

/-- `str::trim`: drop leading and trailing whitespace. -/
def trimL (cs : List Char) : List Char :=
  ((cs.dropWhile Char.isWhitespace).reverse.dropWhile Char.isWhitespace).reverse

/-- Lowercase every character of a word. -/
def lowerW (cs : List Char) : List Char := cs.map Char.toLower

/-- Uppercase the first character of a word. -/
def capFirst : List Char → List Char
  | [] => []
  | c :: rest => c.toUpper :: rest

/-- Minor words of Gruber-style title casing. -/
def smallWordsL : List (List Char) :=
  ["a", "an", "and", "as", "at", "but", "by", "en", "for", "if", "in",
   "of", "on", "or", "the", "to", "v", "v.", "via", "vs", "vs."].map String.data

/-- Split a word list on single spaces. -/
def splitWords : List Char → List (List Char)
  | [] => [[]]
  | c :: rest =>
    match splitWords rest with
    | [] => if c = ' ' then [[], []] else [[c]]
    | w :: ws => if c = ' ' then [] :: w :: ws else (c :: w) :: ws

/-- Join words back with single spaces. -/
def joinWords : List (List Char) → List Char
  | [] => []
  | [w] => w
  | w :: ws => w ++ ' ' :: joinWords ws

/-- Title-case one word: a minor word not in edge position is lowercased,
every other word gets its first character capitalized. -/
def titleWord (isEdge : Bool) (w : List Char) : List Char :=
  if !isEdge && lowerW w ∈ smallWordsL then lowerW w else capFirst w

/-- Title-case a word list; the boolean marks the first word, and the
last word of the list is always an edge word. -/
def titleWords : Bool → List (List Char) → List (List Char)
  | _, [] => []
  | _, [w] => [titleWord true w]
  | isFirst, w :: ws => titleWord isFirst w :: titleWords false ws

/-- Modelled from the spec: the `titlecase` crate used at main.rs 123/145
is an external collaborator (its source is not under src/). §4.1 of the
spec: apply title-casing, each word's first letter capitalized per
standard title-case rules, minor words lower-cased (with the standard
first/last-word exception, as in §8's example where `the.show` becomes
`The Show`). -/
def titlecaseL (cs : List Char) : List Char :=
  joinWords (titleWords true (splitWords cs))

/-- The name transformation applied to a captured `name` group
(main.rs 123 and 145): `titlecase(name.replace('.', " ").trim())`. -/
def transformName (raw : String) : String :=
  String.mk (titlecaseL (trimL (replaceDotL raw.data)))

/-- The classification outcome, §3's `NamingResult`: season, episode and
year carry the literal captured digit strings the code formats. -/
inductive NamingResult
  | episode (title season episode : String)
  | movie (title year : String)
deriving DecidableEq

/-- The distinct `anyhow` error messages of `get_destination_file_name`
(main.rs 110-158), one constructor per message. -/
inductive ClassifyErr
  | noStem
  | missingEpisodeName
  | missingSeason
  | missingEpisode
  | missingMovieName
  | missingYear
  | noPatternMatch
deriving DecidableEq

/-- The classification core of `get_destination_file_name`: episode
pattern first, then movie pattern, each with the code's defensive
`ok_or` on every capture group. -/
def classify (p : FsPath) : Except ClassifyErr NamingResult :=
  match p.stem with
  | none => .error .noStem
  | some fileName =>
    match episodeCaptures fileName with
    | some caps =>
      match caps.name with
      | none => .error .missingEpisodeName
      | some n =>
        match caps.season with
        | none => .error .missingSeason
        | some se =>
          match caps.episode with
          | none => .error .missingEpisode
          | some ep => .ok (.episode (transformName n) se ep)
    | none =>
      match movieCaptures fileName with
      | some caps =>
        match caps.name with
        | none => .error .missingMovieName
        | some n =>
          match caps.year with
          | none => .error .missingYear
          | some y => .ok (.movie (transformName n) y)
      | none => .error .noPatternMatch

/-- Rust `{:02}` applied to a `&str` argument: the zero flag and
sign-aware zero padding apply only to numeric types, so the string is
padded to width 2 with the default fill `' '` and the default string
alignment (left), i.e. spaces are appended. -/
def fmtWidth2 (s : String) : String :=
  if s.length < 2 then s ++ String.mk (List.replicate (2 - s.length) ' ') else s

/-- The two `format!` calls of `get_destination_file_name`
(main.rs 136 and 153). -/
def render : NamingResult → String
  | .episode t se ep => t ++ " - S" ++ fmtWidth2 se ++ "E" ++ fmtWidth2 ep
  | .movie t y => t ++ " (" ++ y ++ ")"

/-- `get_destination_file_name` (main.rs 110-158). -/
def get_destination_file_name (p : FsPath) : Except ClassifyErr String :=
  (classify p).map render

/-- Observation: did classification land in the episode branch? -/
def isEpisodeResult : Except ClassifyErr NamingResult → Bool
  | .ok (.episode _ _ _) => true
  | _ => false

/-- The defensive capture errors, as opposed to `noPatternMatch`. -/
def isMissingCaptureErr : ClassifyErr → Bool
  | .missingEpisodeName => true
  | .missingSeason => true
  | .missingEpisode => true
  | .missingMovieName => true
  | .missingYear => true
  | _ => false

/-- Did classification fail through a defensive capture branch? -/
def resultMissingCapture : Except ClassifyErr NamingResult → Bool
  | .error e => isMissingCaptureErr e
  | .ok _ => false

/-- One archive entry as `extract_rar_file` observes it: the
`is_file()` flag, the extension of the entry's file name (`none` when
absent or not UTF-8) and `unpacked_size`. -/
structure Entry where
  is_file : Bool
  ext : Option String
  unpacked_size : Nat
deriving DecidableEq

/-- The per-entry outcome named by §3 of the design: `Extracted`,
`Skipped`, `Replaced` (reasons elided). -/
inductive Outcome
  | extracted
  | skipped
  | replaced
deriving DecidableEq

/-- The failures `extract_rar_file` can surface in the model: a payload
entry without a file extension (main.rs 174), or a failure of the
archive collaborator's extraction (main.rs 198). -/
inductive RecErr
  | noExtension
  | extractFailure
deriving DecidableEq

/-- The destination directory, keyed by destination extension: the stem
`destination_directory.join(file_name)` is fixed for the whole run
(canonical names contain no period, so `with_extension` appends), so
only the extension varies across destination paths. A file is its
content, a byte list. -/
abbrev FS := List (String × List Nat)

/-- The archive-decoding collaborator: the bytes `Header::extract_to`
writes for an entry, `none` modelling an extraction failure. -/
abbrev Oracle := Entry → Option (List Nat)

/-- `Path::exists` / reading the destination: content of the file with
the given extension, if present. -/
def lookupFS : FS → String → Option (List Nat)
  | [], _ => none
  | (k, v) :: rest, key => if k = key then some v else lookupFS rest key

/-- `std::fs::remove_file` on the destination with the given extension. -/
def eraseFS : FS → String → FS
  | [], _ => []
  | (k, v) :: rest, key =>
    if k = key then eraseFS rest key else (k, v) :: eraseFS rest key

/-- Creating the destination file with the given content. -/
def writeFS (fs : FS) (key : String) (v : List Nat) : FS :=
  (key, v) :: eraseFS fs key

/-- `extract_rar_file` (main.rs 161-205): walk the entry headers in
order; skip non-file entries; for a file entry, fail without an
extension, otherwise compare any existing destination: equal size
breaks out of the loop (skip), unequal size removes the file and falls
through to extraction, absence falls through to extraction directly.
Returns the final filesystem and, on success, the per-payload outcomes
in walk order. -/
def extract_rar_file (oracle : Oracle) : List Entry → FS → FS × Except RecErr (List Outcome)
  | [], fs => (fs, .ok [])
  | e :: rest, fs =>
    if e.is_file then
      match e.ext with
      | none => (fs, .error .noExtension)
      | some ext =>
        match lookupFS fs ext with
        | some content =>
          if e.unpacked_size ≠ content.length then
            match oracle e with
            | none => (eraseFS fs ext, .error .extractFailure)
            | some c =>
              let r := extract_rar_file oracle rest (writeFS (eraseFS fs ext) ext c)
              (r.1, r.2.map (fun os => Outcome.replaced :: os))
          else (fs, .ok [Outcome.skipped])
        | none =>
          match oracle e with
          | none => (fs, .error .extractFailure)
          | some c =>
            let r := extract_rar_file oracle rest (writeFS fs ext c)
            (r.1, r.2.map (fun os => Outcome.extracted :: os))
    else extract_rar_file oracle rest fs

/-- The archive collaborator honouring its metadata contract: extraction
succeeds and writes exactly `unpacked_size` bytes. -/
def oracleLen : Oracle := fun e => some (List.replicate e.unpacked_size 0)

/-- An extraction collaborator that always fails. -/
def oracleFail : Oracle := fun _ => none

/-- A directory entry inside the archive. -/
def dirEntry : Entry := ⟨false, none, 0⟩

/-- A payload entry with extension `mkv` and 5 uncompressed bytes. -/
def entryMkv5 : Entry := ⟨true, some "mkv", 5⟩

/-- A payload entry with extension `mkv` and 7 uncompressed bytes. -/
def entryMkv7 : Entry := ⟨true, some "mkv", 7⟩

/-- A payload entry with extension `avi` and 2 uncompressed bytes. -/
def entryAvi2 : Entry := ⟨true, some "avi", 2⟩

deriving instance DecidableEq for Except

/-! ### Helper lemmas about the filesystem model -/

theorem lookupFS_writeFS (fs : FS) (k : String) (v : List Nat) :
    lookupFS (writeFS fs k v) k = some v := by
  simp [writeFS, lookupFS]

theorem lookupFS_eraseFS (fs : FS) (k : String) :
    lookupFS (eraseFS fs k) k = none := by
  induction fs with
  | nil => rfl
  | cons p rest ih =>
    obtain ⟨a, b⟩ := p
    by_cases h : a = k
    · simpa [eraseFS, h] using ih
    · simpa [eraseFS, lookupFS, h] using ih

/-! ### Helper lemmas about the entry walk -/

theorem extract_skips_dirs (oracle : Oracle) (ds es : List Entry) (fs : FS)
    (h : ∀ d ∈ ds, d.is_file = false) :
    extract_rar_file oracle (ds ++ es) fs = extract_rar_file oracle es fs := by
  induction ds with
  | nil => rfl
  | cons d ds ih =>
    have hd : d.is_file = false := h d (by simp)
    have hds : ∀ d' ∈ ds, d'.is_file = false := fun d' hm => h d' (by simp [hm])
    simpa [extract_rar_file, hd] using ih hds

theorem extract_dirs_only (oracle : Oracle) (ds : List Entry) (fs : FS)
    (h : ∀ d ∈ ds, d.is_file = false) :
    extract_rar_file oracle ds fs = (fs, .ok []) := by
  have := extract_skips_dirs oracle ds [] fs h
  simpa using this

theorem skip_step (oracle : Oracle) (e : Entry) (rest : List Entry) (fs : FS)
    (ext : String) (c : List Nat) (hf : e.is_file = true) (hx : e.ext = some ext)
    (hlk : lookupFS fs ext = some c) (hlen : e.unpacked_size = c.length) :
    extract_rar_file oracle (e :: rest) fs = (fs, .ok [Outcome.skipped]) := by
  simp [extract_rar_file, hf, hx, hlk, hlen]

theorem new_step (oracle : Oracle) (e : Entry) (rest : List Entry) (fs : FS)
    (ext : String) (c : List Nat) (hf : e.is_file = true) (hx : e.ext = some ext)
    (hlk : lookupFS fs ext = none) (ho : oracle e = some c) :
    extract_rar_file oracle (e :: rest) fs =
      ((extract_rar_file oracle rest (writeFS fs ext c)).1,
       (extract_rar_file oracle rest (writeFS fs ext c)).2.map
         (fun os => Outcome.extracted :: os)) := by
  simp [extract_rar_file, hf, hx, hlk, ho]

theorem replace_step (oracle : Oracle) (e : Entry) (rest : List Entry) (fs : FS)
    (ext : String) (c0 c : List Nat) (hf : e.is_file = true) (hx : e.ext = some ext)
    (hlk : lookupFS fs ext = some c0) (hne : e.unpacked_size ≠ c0.length)
    (ho : oracle e = some c) :
    extract_rar_file oracle (e :: rest) fs =
      ((extract_rar_file oracle rest (writeFS (eraseFS fs ext) ext c)).1,
       (extract_rar_file oracle rest (writeFS (eraseFS fs ext) ext c)).2.map
         (fun os => Outcome.replaced :: os)) := by
  simp [extract_rar_file, hf, hx, hlk, hne, ho]

theorem replace_fail (oracle : Oracle) (e : Entry) (rest : List Entry) (fs : FS)
    (ext : String) (c0 : List Nat) (hf : e.is_file = true) (hx : e.ext = some ext)
    (hlk : lookupFS fs ext = some c0) (hne : e.unpacked_size ≠ c0.length)
    (ho : oracle e = none) :
    extract_rar_file oracle (e :: rest) fs = (eraseFS fs ext, .error .extractFailure) := by
  simp [extract_rar_file, hf, hx, hlk, hne, ho]

/-! ### Helper lemmas about the capture structures -/

theorem episodeCaptures_fields {s : String} {caps : EpCaps}
    (h : episodeCaptures s = some caps) :
    ∃ n se ep, caps = ⟨some n, some se, some ep⟩ := by
  unfold episodeCaptures at h
  rw [Option.map_eq_some'] at h
  obtain ⟨⟨n, se, ep⟩, _, rfl⟩ := h
  exact ⟨_, _, _, rfl⟩

theorem movieCaptures_fields {s : String} {caps : MovieCaps}
    (h : movieCaptures s = some caps) :
    ∃ n y, caps = ⟨some n, some y⟩ := by
  unfold movieCaptures at h
  rw [Option.map_eq_some'] at h
  obtain ⟨⟨r, n, y⟩, _, rfl⟩ := h
  exact ⟨_, _, rfl⟩

/-! ### Helper lemmas about the lazy movie matcher -/

theorem movieTail_of_movieFrom_none {cs : List Char} (h : movieFrom cs = none) :
    movieTail cs = none := by
  cases cs with
  | nil => rfl
  | cons c rest =>
    unfold movieFrom at h
    cases htail : movieTail (c :: rest) with
    | none => rfl
    | some y => rw [htail] at h; exact absurd h (by simp)

theorem movieFrom_spec : ∀ {cs n y}, movieFrom cs = some (n, y) →
    movieTail (List.drop n.length cs) = some y ∧
      ∀ j, j < n.length → movieTail (List.drop j cs) = none := by
  intro cs
  induction cs with
  | nil => intro n y h; simp [movieFrom] at h
  | cons c rest ih =>
    intro n y h
    unfold movieFrom at h
    cases htail : movieTail (c :: rest) with
    | some y' =>
      rw [htail] at h
      obtain ⟨rfl, rfl⟩ := by simpa using h
      refine ⟨by simpa using htail, ?_⟩
      intro j hj
      exact absurd hj (by simp)
    | none =>
      rw [htail] at h
      by_cases hc : dotC c = true
      · rw [if_pos hc, Option.map_eq_some'] at h
        obtain ⟨⟨n', y''⟩, hrec, heq⟩ := h
        obtain ⟨rfl, rfl⟩ := by simpa using heq.symm
        obtain ⟨h1, h2⟩ := ih hrec
        refine ⟨by simpa using h1, ?_⟩
        intro j hj
        cases j with
        | zero => simpa using htail
        | succ j' =>
          rw [List.drop_succ_cons]
          exact h2 j' (by simpa using hj)
      · rw [if_neg hc] at h
        exact absurd h (by simp)

/-! ### The claims -/

/-- C1, counterexample: with two payload entries and an empty destination
directory the walk resolves BOTH entries (outcome list of length two, and
the second entry's file is present afterwards), so the run does not
terminate after the first non-directory entry when its outcome is
Extracted. -/
theorem claim_C1_counterexample :
    (extract_rar_file oracleLen [entryMkv5, entryAvi2] []).2
        = .ok [Outcome.extracted, Outcome.extracted] ∧
      lookupFS (extract_rar_file oracleLen [entryMkv5, entryAvi2] []).1 "avi"
        = some [0, 0] := by
  decide

/-- C1, amended: the run terminates immediately after a payload entry
only when that entry resolves as Skipped (equal size), for every suffix
of further entries; when the outcome is Extracted (destination absent)
or Replaced (destination present with a mismatched size, deleted and
rewritten), the walk continues with the remaining entries. -/
theorem claim_C1_amended :
    (∀ (oracle : Oracle) (e : Entry) (rest : List Entry) (fs : FS) (ext : String)
        (c : List Nat), e.is_file = true → e.ext = some ext →
        lookupFS fs ext = some c → e.unpacked_size = c.length →
        extract_rar_file oracle (e :: rest) fs = (fs, .ok [Outcome.skipped])) ∧
      (∀ (oracle : Oracle) (e : Entry) (rest : List Entry) (fs : FS) (ext : String)
        (c : List Nat), e.is_file = true → e.ext = some ext →
        lookupFS fs ext = none → oracle e = some c →
        extract_rar_file oracle (e :: rest) fs =
          ((extract_rar_file oracle rest (writeFS fs ext c)).1,
           (extract_rar_file oracle rest (writeFS fs ext c)).2.map
             (fun os => Outcome.extracted :: os))) ∧
      (∀ (oracle : Oracle) (e : Entry) (rest : List Entry) (fs : FS) (ext : String)
        (c0 c : List Nat), e.is_file = true → e.ext = some ext →
        lookupFS fs ext = some c0 → e.unpacked_size ≠ c0.length → oracle e = some c →
        extract_rar_file oracle (e :: rest) fs =
          ((extract_rar_file oracle rest (writeFS (eraseFS fs ext) ext c)).1,
           (extract_rar_file oracle rest (writeFS (eraseFS fs ext) ext c)).2.map
             (fun os => Outcome.replaced :: os))) :=
  ⟨fun o e rest fs ext c h1 h2 h3 h4 => skip_step o e rest fs ext c h1 h2 h3 h4,
   fun o e rest fs ext c h1 h2 h3 h4 => new_step o e rest fs ext c h1 h2 h3 h4,
   fun o e rest fs ext c0 c h1 h2 h3 h4 h5 =>
     replace_step o e rest fs ext c0 c h1 h2 h3 h4 h5⟩

/-- C1, witness: the Skipped early stop at a concrete input, with a
pending second entry that is indeed never processed. -/
theorem claim_C1_witness :
    extract_rar_file oracleLen [entryMkv5, entryAvi2] [("mkv", List.replicate 5 0)]
      = ([("mkv", List.replicate 5 0)], .ok [Outcome.skipped]) :=
  claim_C1_amended.1 oracleLen entryMkv5 [entryAvi2] [("mkv", List.replicate 5 0)]
    "mkv" (List.replicate 5 0) rfl rfl (by decide) (by decide)

/-- C2, counterexample: the movie pattern is lazy (`swap_greed`), so on
`movie.1999.remastered.2015` the FIRST period-delimited 4-digit group is
the year: the code renders `Movie (1999)`, not the claimed
`Movie 1999 Remastered (2015)`. -/
theorem claim_C2_counterexample :
    get_destination_file_name ⟨some "movie.1999.remastered.2015", some "rar"⟩
        = .ok "Movie (1999)" ∧
      "Movie (1999)" ≠ "Movie 1999 Remastered (2015)" := by
  decide

/-- C2, amended: whenever the movie regex matches (match start `r`, name
group `n`, year group `y`), the year is the FIRST position at which
`\.\d{4}` matches: it matches right after the name group and at no
earlier position of the raw name. -/
theorem claim_C2_amended (cs : List Char) (r : Nat) (n y : List Char)
    (h : movieSearch cs = some (r, n, y)) :
    movieTail (List.drop (r + n.length) cs) = some y ∧
      ∀ j, j < r + n.length → movieTail (List.drop j cs) = none := by
  induction cs generalizing r n y with
  | nil => simp [movieSearch] at h
  | cons c rest ih =>
    unfold movieSearch at h
    cases hf : movieFrom (c :: rest) with
    | some p =>
      rw [hf] at h
      obtain ⟨rfl, rfl, rfl⟩ := by simpa using h
      obtain ⟨h1, h2⟩ := movieFrom_spec (by simpa using hf)
      exact ⟨by simpa using h1, by simpa using h2⟩
    | none =>
      rw [hf, Option.map_eq_some'] at h
      obtain ⟨⟨r', n', y'⟩, hrec, heq⟩ := h
      obtain ⟨rfl, rfl, rfl⟩ := by simpa using heq.symm
      obtain ⟨h1, h2⟩ := ih _ _ _ hrec
      constructor
      · have harith : ∀ a b : Nat, a + 1 + b = (a + b) + 1 := fun a b => by omega
        rw [harith, List.drop_succ_cons]
        exact h1
      · intro j hj
        cases j with
        | zero => simpa using movieTail_of_movieFrom_none hf
        | succ j' =>
          rw [List.drop_succ_cons]
          exact h2 j' (by omega)

/-- C2, witness: the amended theorem applied to the concrete stem
`movie.1999.remastered.2015`, whose match starts at 0 with name `movie`
and year `1999`. -/
theorem claim_C2_witness :
    movieTail (List.drop (0 + ("movie".data).length)
        ("movie.1999.remastered.2015".data)) = some ("1999".data) :=
  (claim_C2_amended "movie.1999.remastered.2015".data 0 "movie".data "1999".data
    (by decide)).1

/-- C3, code bug: evaluating the classifier at the failing input
`show.s1e2`. The Rust `{:02}` zero flag applies only to numeric types,
and season/episode are passed as `&str`, so a one-digit capture is
left-aligned and padded with a trailing space: the code renders
`Show - S1 E2 ` where the spec (and the format string's evident intent)
says `Show - S01E02`. -/
theorem claim_C3_eval :
    get_destination_file_name ⟨some "show.s1e2", some "rar"⟩
      = .ok "Show - S1 E2 " := by
  decide

/-- C4, counterexample: an entry sequence of only directory entries makes
the walk fall off the end of the loop and return success with no
outcome; there is no `NoPayloadEntry` failure in the code. -/
theorem claim_C4_counterexample :
    extract_rar_file oracleLen [dirEntry, dirEntry] [] = ([], .ok []) := by
  decide

/-- C4, amended: directory entries are skipped without any filesystem
side effect, and a sequence containing only directory entries completes
successfully with an unchanged filesystem and no outcome (rather than
failing with `NoPayloadEntry`). -/
theorem claim_C4_amended (oracle : Oracle) (entries : List Entry) (fs : FS)
    (h : ∀ d ∈ entries, d.is_file = false) :
    extract_rar_file oracle entries fs = (fs, .ok []) :=
  extract_dirs_only oracle entries fs h

/-- C4, witness: the amended theorem at a concrete all-directory
sequence. -/
theorem claim_C4_witness :
    extract_rar_file oracleLen [dirEntry] [] = ([], .ok []) :=
  claim_C4_amended oracleLen [dirEntry] [] (by decide)

/-- C5: the episode pattern is tried first and first match wins — for
every path whose stem the episode regex matches, classification resolves
to the episode variant, never the movie variant. -/
theorem claim_C5 (p : FsPath) (s : String) (caps : EpCaps)
    (hstem : p.stem = some s) (hcaps : episodeCaptures s = some caps) :
    isEpisodeResult (classify p) = true := by
  obtain ⟨n, se, ep, rfl⟩ := episodeCaptures_fields hcaps
  simp [classify, hstem, hcaps, isEpisodeResult]

/-- C5, witness: `show.s01e02.2015` matches both the episode and the
movie shape and resolves as an episode. -/
theorem claim_C5_witness :
    isEpisodeResult (classify ⟨some "show.s01e02.2015", some "rar"⟩) = true :=
  claim_C5 ⟨some "show.s01e02.2015", some "rar"⟩ "show.s01e02.2015"
    ⟨some "show.", some "01", some "02"⟩ rfl (by decide)

/-- C6, counterexample: two payload entries sharing an extension with
different sizes. The first run succeeds, but re-running the same
sequence against its result yields `Replaced` outcomes (deleting and
rewriting the file), not `Skipped`, so the cross-run idempotence clause
of the claim fails. -/
theorem claim_C6_counterexample :
    extract_rar_file oracleLen [entryMkv5, entryMkv7] [] =
        ([("mkv", List.replicate 7 0)], .ok [Outcome.extracted, Outcome.replaced]) ∧
      extract_rar_file oracleLen [entryMkv5, entryMkv7] [("mkv", List.replicate 7 0)] =
        ([("mkv", List.replicate 7 0)], .ok [Outcome.replaced, Outcome.replaced]) ∧
      Outcome.skipped ∉ [Outcome.replaced, Outcome.replaced] := by
  decide

/-- C6, amended: (1) if the first payload entry's destination exists with
matching size, the run (after any directory prefix) yields exactly
`Skipped` and leaves the filesystem untouched; (2) re-running an entry
sequence with a single payload entry (any directory entries around it)
after a first run, with an extraction collaborator honouring the size
metadata, yields `Skipped` and an unchanged filesystem. -/
theorem claim_C6_amended :
    (∀ (oracle : Oracle) (ds rest : List Entry) (e : Entry) (fs : FS) (ext : String)
        (c : List Nat), (∀ d ∈ ds, d.is_file = false) → e.is_file = true →
        e.ext = some ext → lookupFS fs ext = some c → c.length = e.unpacked_size →
        extract_rar_file oracle (ds ++ e :: rest) fs = (fs, .ok [Outcome.skipped])) ∧
      (∀ (oracle : Oracle) (ds1 ds2 : List Entry) (e : Entry) (fs : FS) (ext : String)
        (c : List Nat), (∀ d ∈ ds1, d.is_file = false) → (∀ d ∈ ds2, d.is_file = false) →
        e.is_file = true → e.ext = some ext → oracle e = some c →
        c.length = e.unpacked_size →
        extract_rar_file oracle (ds1 ++ e :: ds2)
            (extract_rar_file oracle (ds1 ++ e :: ds2) fs).1 =
          ((extract_rar_file oracle (ds1 ++ e :: ds2) fs).1, .ok [Outcome.skipped])) := by
  constructor
  · intro oracle ds rest e fs ext c hds hf hx hlk hc
    rw [extract_skips_dirs oracle ds _ _ hds]
    exact skip_step oracle e rest fs ext c hf hx hlk hc.symm
  · intro oracle ds1 ds2 e fs ext c h1 h2 hf hx ho hc
    have hskip : ∀ g : FS, extract_rar_file oracle (ds1 ++ e :: ds2) g
        = extract_rar_file oracle (e :: ds2) g :=
      fun g => extract_skips_dirs oracle ds1 (e :: ds2) g h1
    rw [hskip, hskip]
    cases hlk : lookupFS fs ext with
    | none =>
      have hrun1 : extract_rar_file oracle (e :: ds2) fs
          = (writeFS fs ext c, .ok [Outcome.extracted]) := by
        rw [new_step oracle e ds2 fs ext c hf hx hlk ho,
          extract_dirs_only oracle ds2 _ h2]
        rfl
      rw [hrun1]
      exact skip_step oracle e ds2 (writeFS fs ext c) ext c hf hx
        (lookupFS_writeFS fs ext c) hc.symm
    | some c0 =>
      by_cases heq : e.unpacked_size = c0.length
      · have hrun1 : extract_rar_file oracle (e :: ds2) fs
            = (fs, .ok [Outcome.skipped]) :=
          skip_step oracle e ds2 fs ext c0 hf hx hlk heq
        rw [hrun1]
        exact skip_step oracle e ds2 fs ext c0 hf hx hlk heq
      · have hrun1 : extract_rar_file oracle (e :: ds2) fs
            = (writeFS (eraseFS fs ext) ext c, .ok [Outcome.replaced]) := by
          rw [replace_step oracle e ds2 fs ext c0 c hf hx hlk heq ho,
            extract_dirs_only oracle ds2 _ h2]
          rfl
        rw [hrun1]
        exact skip_step oracle e ds2 (writeFS (eraseFS fs ext) ext c) ext c hf hx
          (lookupFS_writeFS (eraseFS fs ext) ext c) hc.symm

/-- C6, witness: re-running a single-payload sequence (with a directory
entry before the payload) against the result of its first run yields
`Skipped` and changes nothing. -/
theorem claim_C6_witness :
    extract_rar_file oracleLen ([dirEntry] ++ entryMkv5 :: [])
        (extract_rar_file oracleLen ([dirEntry] ++ entryMkv5 :: []) []).1 =
      ((extract_rar_file oracleLen ([dirEntry] ++ entryMkv5 :: []) []).1,
        .ok [Outcome.skipped]) :=
  claim_C6_amended.2 oracleLen [dirEntry] [] entryMkv5 [] "mkv"
    (List.replicate 5 0) (by decide) (by decide) rfl rfl rfl (by decide)

/-- C7: a payload entry whose destination exists with a mismatched size
first deletes the destination, then extracts to it (the walk continuing
on the updated filesystem), with outcome `Replaced`; afterwards the
destination holds the extracted content. -/
theorem claim_C7 (oracle : Oracle) (e : Entry) (rest : List Entry) (fs : FS)
    (ext : String) (c0 c : List Nat) (hf : e.is_file = true) (hx : e.ext = some ext)
    (hlk : lookupFS fs ext = some c0) (hne : e.unpacked_size ≠ c0.length)
    (ho : oracle e = some c) :
    extract_rar_file oracle (e :: rest) fs =
        ((extract_rar_file oracle rest (writeFS (eraseFS fs ext) ext c)).1,
         (extract_rar_file oracle rest (writeFS (eraseFS fs ext) ext c)).2.map
           (fun os => Outcome.replaced :: os)) ∧
      lookupFS (writeFS (eraseFS fs ext) ext c) ext = some c :=
  ⟨replace_step oracle e rest fs ext c0 c hf hx hlk hne ho,
   lookupFS_writeFS (eraseFS fs ext) ext c⟩

/-- C7, witness: the size-mismatch example of §8 in miniature — existing
file of 7 bytes, entry of 5 bytes — is replaced. -/
theorem claim_C7_witness :
    extract_rar_file oracleLen [entryMkv5] [("mkv", List.replicate 7 0)] =
        ((extract_rar_file oracleLen []
            (writeFS (eraseFS [("mkv", List.replicate 7 0)] "mkv") "mkv"
              (List.replicate 5 0))).1,
         (extract_rar_file oracleLen []
            (writeFS (eraseFS [("mkv", List.replicate 7 0)] "mkv") "mkv"
              (List.replicate 5 0))).2.map
           (fun os => Outcome.replaced :: os)) ∧
      lookupFS (writeFS (eraseFS [("mkv", List.replicate 7 0)] "mkv") "mkv"
          (List.replicate 5 0)) "mkv" = some (List.replicate 5 0) :=
  claim_C7 oracleLen entryMkv5 [] [("mkv", List.replicate 7 0)] "mkv"
    (List.replicate 7 0) (List.replicate 5 0) rfl rfl (by decide) (by decide) rfl

/-- C8: on the replace path the destination is deleted before extraction
is attempted, so a failing extraction surfaces an error with the
original file already removed and not restored. -/
theorem claim_C8 (oracle : Oracle) (e : Entry) (rest : List Entry) (fs : FS)
    (ext : String) (c0 : List Nat) (hf : e.is_file = true) (hx : e.ext = some ext)
    (hlk : lookupFS fs ext = some c0) (hne : e.unpacked_size ≠ c0.length)
    (ho : oracle e = none) :
    extract_rar_file oracle (e :: rest) fs = (eraseFS fs ext, .error .extractFailure) ∧
      lookupFS (eraseFS fs ext) ext = none :=
  ⟨replace_fail oracle e rest fs ext c0 hf hx hlk hne ho,
   lookupFS_eraseFS fs ext⟩

/-- C8, witness: a failing extraction after a size mismatch leaves the
destination deleted. -/
theorem claim_C8_witness :
    extract_rar_file oracleFail [entryMkv5] [("mkv", List.replicate 7 0)]
        = (eraseFS [("mkv", List.replicate 7 0)] "mkv", .error .extractFailure) ∧
      lookupFS (eraseFS [("mkv", List.replicate 7 0)] "mkv") "mkv" = none :=
  claim_C8 oracleFail entryMkv5 [] [("mkv", List.replicate 7 0)] "mkv"
    (List.replicate 7 0) rfl rfl (by decide) (by decide) rfl

/-- C9, counterexample: a directory containing one regular file with a
non-`rar` extension makes the scan fail — that file was never a
candidate, so extension filtering does happen. -/
theorem claim_C9_counterexample :
    find_rar_file [⟨some "movie", some "zip"⟩] = none := by
  decide

/-- C9, amended: the archive-locating scan filters by file extension and
selects the first directory entry whose extension is exactly `rar`;
entries with any other extension, or none, are never candidates. -/
theorem claim_C9_amended (l : List FsPath) :
    find_rar_file l = l.find? (fun p => p.ext == some "rar") := by
  induction l with
  | nil => rfl
  | cons p rest ih =>
    cases hx : p.ext with
    | none => simp [find_rar_file, List.find?_cons, hx, ih]
    | some e =>
      by_cases he : e = "rar"
      · subst he; simp [find_rar_file, List.find?_cons, hx]
      · simp [find_rar_file, List.find?_cons, hx, he, ih]

/-- C10: the episode regex binds its name, season and episode groups on
every match, and the movie regex binds name and year on every match, so
the defensive missing-capture error branches of
`get_destination_file_name` are unreachable for every input. -/
theorem claim_C10 (p : FsPath) : resultMissingCapture (classify p) = false := by
  cases hstem : p.stem with
  | none => simp [classify, hstem, resultMissingCapture, isMissingCaptureErr]
  | some s =>
    cases hep : episodeCaptures s with
    | some caps =>
      obtain ⟨n, se, ep, rfl⟩ := episodeCaptures_fields hep
      simp [classify, hstem, hep, resultMissingCapture]
    | none =>
      cases hmv : movieCaptures s with
      | some mc =>
        obtain ⟨n, y, rfl⟩ := movieCaptures_fields hmv
        simp [classify, hstem, hep, hmv, resultMissingCapture]
      | none =>
        simp [classify, hstem, hep, hmv, resultMissingCapture, isMissingCaptureErr]

end Dessert
